import Mathlib

/-
  Verification development for the wasmtextparser repository, a streaming
  lexer and parser for the WebAssembly text format.

  The definitions below are a shallow embedding of src/lexer.rs and
  src/wat.rs.  Bytes are modelled as Nat, byte buffers as List Nat, Rust
  Result values as Except, and Rust panics (panic, unwrap on None,
  unreachable, unimplemented, assert failures) as a distinguished error
  outcome.  Loops are modelled with an explicit fuel argument; every loop
  in the source advances the cursor by at least one byte per iteration, so
  fuel source.length + 1 always suffices and the fuel-exhaustion branch is
  never taken on any run considered here.
-/

set_option maxRecDepth 100000

abbrev Byte := Nat

/-- Position of a byte in the source, mirroring lexer.rs WatPosition. -/
structure WatPosition where
  line : Nat
  column : Nat
  position : Nat
deriving DecidableEq, Repr

/-- Token classification, mirroring lexer.rs WatTokenType. -/
inductive WatTokenType where
  | End
  | Keyword
  | Unsigned
  | Signed
  | Float
  | String
  | ID
  | OpenParen
  | CloseParen
  | Reserved
deriving DecidableEq, Repr

/-- A token with its half-open byte span. The Rust field named end is
renamed endPos because end is a Lean keyword. -/
structure WatToken where
  ty : WatTokenType
  start : WatPosition
  endPos : WatPosition
deriving DecidableEq, Repr

/-- Lexer error value, mirroring lexer.rs WatLexerError. -/
structure WatLexerError where
  message : String
  line : Nat
  column : Nat
deriving DecidableEq, Repr

/-- The scanning cursor of the lexer: the fields of WatLexer that the
byte-scanning routines read and write (source, position, line, line_start).
The token bookkeeping lives in WatLexer below. -/
structure ScanSt where
  source : List Byte
  position : Nat
  line : Nat
  line_start : Nat
deriving DecidableEq, Repr

def ScanSt.current_char (s : ScanSt) : Byte :=
  s.source.getD s.position 0

def ScanSt.current_position (s : ScanSt) : WatPosition :=
  { line := s.line, column := s.position - s.line_start, position := s.position }

/-- next_char advances the cursor and reports whether it is still in bounds. -/
def ScanSt.next_char (s : ScanSt) : ScanSt × Bool :=
  let t : ScanSt := { s with position := s.position + 1 }
  (t, decide (t.position < s.source.length))

def ScanSt.eos (s : ScanSt) : Bool :=
  decide (s.source.length ≤ s.position)

/-- The idchar test of lexer.rs.  Note: the source tests the backtick byte
(96) twice and never tests the apostrophe byte (39); this is translated
faithfully. -/
def is_idchar_byte (ch : Byte) : Bool :=
  (48 ≤ ch && ch ≤ 57) || (65 ≤ ch && ch ≤ 90) ||
  (97 ≤ ch && ch ≤ 122) || ch == 33 || ch == 35 ||
  ch == 36 || ch == 37 || ch == 38 ||
  ch == 96 || ch == 42 ||
  ch == 43 || ch == 45 ||
  ch == 46 || ch == 47 ||
  ch == 58 || ch == 60 || ch == 61 ||
  ch == 62 || ch == 63 || ch == 64 ||
  ch == 92 || ch == 94 || ch == 95 ||
  ch == 96 || ch == 126

def ScanSt.is_idchar (s : ScanSt) : Bool :=
  is_idchar_byte s.current_char

def ScanSt.is_hexdigit (s : ScanSt) : Bool :=
  let ch := s.current_char
  (48 ≤ ch && ch ≤ 57) || (65 ≤ ch && ch ≤ 70) || (97 ≤ ch && ch ≤ 102)

def ScanSt.unwind (s : ScanSt) : ScanSt :=
  { s with position := s.position - 1 }

def ScanSt.has_next_char (s : ScanSt) (ch : Byte) : Bool :=
  decide (s.position + 1 < s.source.length) && (s.source.getD (s.position + 1) 0 == ch)

def ScanSt.create_error (s : ScanSt) (message : String) : WatLexerError :=
  { message := message, line := s.line, column := s.position - s.line_start }

def ScanSt.unexpected_char (s : ScanSt) : WatLexerError :=
  s.create_error "Unexpected character"

def ScanSt.unexpected_eos (s : ScanSt) : WatLexerError :=
  s.create_error "Unexpected eos"

/-- Fuel-exhaustion marker; unreachable with fuel source.length + 1. -/
def fuel_error (s : ScanSt) : WatLexerError :=
  { message := "[out of fuel]", line := s.line, column := 0 }

/-- skip_hexnum of lexer.rs: consume hex digits with single underscores
between digits. -/
def skip_hexnum : Nat → ScanSt → ScanSt
  | 0, s => s
  | fuel + 1, s =>
    let p := s.next_char
    if !p.2 then p.1
    else if p.1.is_hexdigit then skip_hexnum fuel p.1
    else if !(p.1.current_char == 95) then p.1
    else
      let q := p.1.next_char
      if !q.2 || !q.1.is_hexdigit then q.1.unwind
      else skip_hexnum fuel q.1

/-- The escape handling of scan_string after a backslash: cursor on the
backslash at entry; on success the cursor is wherever the Rust loop body
leaves it before the next head advance.  In the single-character escape
arm the source advances once here and once more at the loop head, so the
byte directly after such an escape is skipped without validation
(translated faithfully). -/
def scan_string_escape (s : ScanSt) : Except WatLexerError ScanSt :=
  let s := (s.next_char).1
  if s.source.length ≤ s.position then .error s.unexpected_eos
  else if s.current_char == 117 then
    let s := (s.next_char).1
    if s.source.length ≤ s.position then .error s.unexpected_eos
    else if !(s.current_char == 123) then .error s.unexpected_char
    else
      let s := (s.next_char).1
      if s.source.length ≤ s.position then .error s.unexpected_eos
      else if !s.is_hexdigit then .error s.unexpected_char
      else
        let s := skip_hexnum (s.source.length + 1) s
        if s.eos then .error s.unexpected_eos
        else if !(s.current_char == 125) then .error s.unexpected_char
        else .ok s
  else if s.current_char == 116 || s.current_char == 110 || s.current_char == 114 ||
          s.current_char == 34 || s.current_char == 39 || s.current_char == 92 then
    .ok ((s.next_char).1)
  else if !s.is_hexdigit then .error s.unexpected_char
  else
    let s := (s.next_char).1
    if s.source.length ≤ s.position then .error s.unexpected_eos
    else if !s.is_hexdigit then .error s.unexpected_char
    else .ok s

/-- The multi-byte UTF-8 validation of scan_string: cursor on the lead
byte at entry, on the last continuation byte at exit. -/
def scan_string_utf8 (s : ScanSt) : Except WatLexerError ScanSt :=
  if s.current_char &&& 192 == 128 then .error s.unexpected_char
  else if s.current_char &&& 248 == 248 then .error s.unexpected_char
  else
    let s1 := (s.next_char).1
    if s1.source.length ≤ s1.position then .error s1.unexpected_eos
    else if !(s1.current_char &&& 192 == 128) then .error s1.unexpected_char
    else if s.current_char &&& 32 != 0 then
      let s2 := (s1.next_char).1
      if s2.source.length ≤ s2.position then .error s2.unexpected_eos
      else if !(s2.current_char &&& 192 == 128) then .error s2.unexpected_char
      else if s.current_char &&& 16 != 0 then
        let s3 := (s2.next_char).1
        if s3.source.length ≤ s3.position then .error s3.unexpected_eos
        else if !(s3.current_char &&& 192 == 128) then .error s3.unexpected_char
        else .ok s3
      else .ok s2
    else .ok s1

/-- The string-scanning loop of lexer.rs scan_string.  The start position
is fixed at entry; each iteration begins by advancing the cursor, exactly
as the Rust while-let loop does. -/
def scan_string_loop (st : WatPosition) : Nat → ScanSt → Except WatLexerError (WatToken × ScanSt)
  | 0, s => .error (fuel_error s)
  | fuel + 1, s =>
    let s := (s.next_char).1
    if s.source.length ≤ s.position then .error s.unexpected_eos
    else if s.current_char == 34 then
      let s := (s.next_char).1
      .ok ({ ty := .String, start := st, endPos := s.current_position }, s)
    else if s.current_char == 92 then
      match scan_string_escape s with
      | .error e => .error e
      | .ok s => scan_string_loop st fuel s
    else if 128 ≤ s.current_char then
      match scan_string_utf8 s with
      | .error e => .error e
      | .ok s => scan_string_loop st fuel s
    else if s.current_char < 32 || s.current_char == 127 then .error s.unexpected_char
    else scan_string_loop st fuel s

def scan_string (s : ScanSt) : Except WatLexerError (WatToken × ScanSt) :=
  scan_string_loop s.current_position (s.source.length + 1) s

def is_digit_char (ch : Byte) : Bool :=
  48 ≤ ch && ch ≤ 57

/-- is_hexdigit_char of lexer.rs: the source accepts every ASCII letter as
a hex digit (a known quirk of the reference), translated faithfully. -/
def is_hexdigit_char (ch : Byte) : Bool :=
  (48 ≤ ch && ch ≤ 57) || (65 ≤ ch && ch ≤ 90) || (97 ≤ ch && ch ≤ 122)

def is_num_go : List Byte → Bool → Bool
  | [], was => was
  | c :: rest, was =>
    if is_digit_char c then is_num_go rest true
    else if was && c == 95 then is_num_go rest false
    else false

def is_num (str : List Byte) : Bool :=
  is_num_go str false

def is_hexnum_go : List Byte → Bool → Bool
  | [], was => was
  | c :: rest, was =>
    if is_hexdigit_char c then is_hexnum_go rest true
    else if was && c == 95 then is_hexnum_go rest false
    else false

def is_hexnum (str : List Byte) : Bool :=
  is_hexnum_go str false

def is_number (str : List Byte) : Bool :=
  if str.length > 2 && str.getD 0 0 == 48 && str.getD 1 0 == 120 then
    is_hexnum (str.drop 2)
  else is_num str

/-- Index loop of is_hexfloat: advance while the byte is not a dot and not
P or p. -/
def scan_to_dot_Pp (str : List Byte) : Nat → Nat → Nat
  | 0, i => i
  | fuel + 1, i =>
    if i < str.length && !(str.getD i 0 == 46) && !(str.getD i 0 == 80) && !(str.getD i 0 == 112) then
      scan_to_dot_Pp str fuel (i + 1)
    else i

def scan_to_Pp (str : List Byte) : Nat → Nat → Nat
  | 0, i => i
  | fuel + 1, i =>
    if i < str.length && !(str.getD i 0 == 80) && !(str.getD i 0 == 112) then
      scan_to_Pp str fuel (i + 1)
    else i

def scan_to_dot_Ee (str : List Byte) : Nat → Nat → Nat
  | 0, i => i
  | fuel + 1, i =>
    if i < str.length && !(str.getD i 0 == 46) && !(str.getD i 0 == 69) && !(str.getD i 0 == 101) then
      scan_to_dot_Ee str fuel (i + 1)
    else i

def scan_to_Ee (str : List Byte) : Nat → Nat → Nat
  | 0, i => i
  | fuel + 1, i =>
    if i < str.length && !(str.getD i 0 == 69) && !(str.getD i 0 == 101) then
      scan_to_Ee str fuel (i + 1)
    else i

/-- is_hexfloat of lexer.rs, translated faithfully.  The final exponent
check tests str[i] != P and str[i] != p, so a run that actually carries a
p exponent marker falls through to the i == len comparison (the known
exponent-marker defect of the reference). -/
def is_hexfloat (str : List Byte) : Bool :=
  let len := str.length
  let i := scan_to_dot_Pp str (len + 1) 0
  if !is_hexnum (str.take i) then false
  else
    let step2 : Option Nat :=
      if i < len && str.getD i 0 == 46 then
        let j := i + 1
        let i2 := scan_to_Pp str (len + 1) j
        if j < i2 && !is_hexnum ((str.drop j).take (i2 - j)) then none else some i2
      else some i
    match step2 with
    | none => false
    | some i =>
      if i < len && !(str.getD i 0 == 80) && !(str.getD i 0 == 112) then
        let i := i + 1
        let i := if i < len && (str.getD i 0 == 45 || str.getD i 0 == 43) then i + 1 else i
        i < len && is_num (str.drop i)
      else decide (i == len)

/-- is_float of lexer.rs, translated faithfully, including the exponent
marker check mirrored from is_hexfloat and the is_num test on the slice
from index 0 (sign included). -/
def is_float (str : List Byte) : Bool :=
  let len := str.length
  let i0 := if str.getD 0 0 == 45 || str.getD 0 0 == 43 then 1 else 0
  if len == i0 + 3 && (str.drop i0 == [110, 97, 110] || str.drop i0 == [105, 110, 102]) then
    true
  else if len > i0 + 6 && (str.drop i0).take 6 == [110, 97, 110, 58, 48, 120] &&
          is_hexnum (str.drop (i0 + 6)) then
    true
  else if len > i0 + 2 && str.getD i0 0 == 48 && str.getD (i0 + 1) 0 == 120 then
    is_hexfloat (str.drop (i0 + 2))
  else
    let i := scan_to_dot_Ee str (len + 1) i0
    if !is_num (str.take i) then false
    else
      let step2 : Option Nat :=
        if i < len && str.getD i 0 == 46 then
          let j := i + 1
          let i2 := scan_to_Ee str (len + 1) j
          if j < i2 && !is_num ((str.drop j).take (i2 - j)) then none else some i2
        else some i
      match step2 with
      | none => false
      | some i =>
        if i < len && !(str.getD i 0 == 69) && !(str.getD i 0 == 101) then
          let i := i + 1
          let i := if i < len && (str.getD i 0 == 45 || str.getD i 0 == 43) then i + 1 else i
          i < len && is_num (str.drop i)
        else decide (i == len)

/-- The maximal idchar run loop of scan_reserved. -/
def scan_reserved_loop : Nat → ScanSt → ScanSt
  | 0, s => s
  | fuel + 1, s =>
    let p := s.next_char
    if p.2 && p.1.is_idchar then scan_reserved_loop fuel p.1 else p.1

/-- scan_reserved of lexer.rs: consume the maximal idchar run, then
classify it once. -/
def scan_reserved (s : ScanSt) : WatToken × ScanSt :=
  let start := s.current_position
  let s := scan_reserved_loop (s.source.length + 1) s
  let endP := s.current_position
  let run := (s.source.drop start.position).take (endP.position - start.position)
  let first := s.source.getD start.position 0
  let ty :=
    if first == 36 then WatTokenType.ID
    else if (first == 43 || first == 45) &&
            is_number ((s.source.drop (start.position + 1)).take (endP.position - (start.position + 1))) then
      WatTokenType.Signed
    else if is_number run then WatTokenType.Unsigned
    else if is_float run then WatTokenType.Float
    else if 97 ≤ first && first ≤ 122 then WatTokenType.Keyword
    else WatTokenType.Reserved
  ({ ty := ty, start := start, endPos := endP }, s)

/-- The loop of skip_block_comment, with the current nesting depth. -/
def skip_block_comment_loop : Nat → Nat → ScanSt → Except WatLexerError ScanSt
  | 0, _, s => .error (fuel_error s)
  | fuel + 1, depth, s =>
    let p := s.next_char
    if !p.2 then .error (p.1.create_error "Incomplete block comment")
    else
      let s := p.1
      if s.current_char == 40 && s.has_next_char 59 then
        skip_block_comment_loop fuel (depth + 1) s
      else if s.current_char == 59 && s.has_next_char 41 then
        if depth == 1 then
          let s := (s.next_char).1
          let s := (s.next_char).1
          .ok s
        else skip_block_comment_loop fuel (depth - 1) s
      else if s.current_char == 10 then
        skip_block_comment_loop fuel depth { s with line := s.line + 1, line_start := s.position + 1 }
      else skip_block_comment_loop fuel depth s

def skip_block_comment (s : ScanSt) : Except WatLexerError ScanSt :=
  skip_block_comment_loop (s.source.length + 1) 1 ((s.next_char).1)

def skip_line_comment_loop : Nat → ScanSt → ScanSt
  | 0, s => s
  | fuel + 1, s =>
    let p := s.next_char
    if p.2 && !(p.1.current_char == 10) then skip_line_comment_loop fuel p.1 else p.1

def skip_line_comment (s : ScanSt) : ScanSt :=
  let s := skip_line_comment_loop (s.source.length + 1) s
  if !s.eos && s.current_char == 10 then
    let s := (s.next_char).1
    { s with line := s.line + 1, line_start := s.position }
  else s

/-- skip_spaces of lexer.rs: skip whitespace, line comments and nested
block comments. -/
def skip_spaces : Nat → ScanSt → Except WatLexerError ScanSt
  | 0, s => .error (fuel_error s)
  | fuel + 1, s =>
    if s.eos then .ok s
    else
      let ch := s.current_char
      if ch == 32 || ch == 9 || ch == 13 then
        skip_spaces fuel ((s.next_char).1)
      else if ch == 10 then
        let s := (s.next_char).1
        skip_spaces fuel { s with line := s.line + 1, line_start := s.position }
      else if ch == 40 && s.has_next_char 59 then
        match skip_block_comment s with
        | .error e => .error e
        | .ok s => skip_spaces fuel s
      else if ch == 59 && s.has_next_char 59 then
        skip_spaces fuel (skip_line_comment s)
      else .ok s

/-- Holds exactly when skip_spaces would stop immediately at s. -/
def skip_done (s : ScanSt) : Bool :=
  s.eos ||
  !(s.current_char == 32 || s.current_char == 9 || s.current_char == 13 ||
    s.current_char == 10 ||
    (s.current_char == 40 && s.has_next_char 59) ||
    (s.current_char == 59 && s.has_next_char 59))

/-- Token dispatch of scan_next_token after whitespace skipping. -/
def dispatch_token (t : ScanSt) : Except WatLexerError (WatToken × ScanSt) :=
  if t.eos then
    .ok ({ ty := .End, start := t.current_position, endPos := t.current_position }, t)
  else if t.current_char == 34 then scan_string t
  else if t.current_char == 40 then
    let t2 := (t.next_char).1
    .ok ({ ty := .OpenParen, start := t.current_position, endPos := t2.current_position }, t2)
  else if t.current_char == 41 then
    let t2 := (t.next_char).1
    .ok ({ ty := .CloseParen, start := t.current_position, endPos := t2.current_position }, t2)
  else if t.is_idchar then .ok (scan_reserved t)
  else .error t.unexpected_char

def scan_next_token (s : ScanSt) : Except WatLexerError (WatToken × ScanSt) :=
  match skip_spaces (s.source.length + 1) s with
  | .error e => .error e
  | .ok t => dispatch_token t

/-- The full lexer state: the scanning cursor plus the current and
previous token, mirroring lexer.rs WatLexer. -/
structure WatLexer where
  scan : ScanSt
  token : Option WatToken
  past_token : Option WatToken
deriving DecidableEq, Repr

def WatLexer.new (source : List Byte) : WatLexer :=
  { scan := { source := source, position := 0, line := 1, line_start := 0 },
    token := none, past_token := none }

/-- next of lexer.rs: scan one token; the previous current token becomes
the past token. -/
def WatLexer.next (l : WatLexer) : Except WatLexerError (WatToken × WatLexer) :=
  match scan_next_token l.scan with
  | .error e => .error e
  | .ok r => .ok (r.1, { scan := r.2, token := some r.1, past_token := l.token })

/-- current_token of lexer.rs unwraps the token option; in every call site
modelled here a token is present (the parser always advances before
inspecting), so a fixed fallback stands in for the impossible None case. -/
def WatLexer.current_token (l : WatLexer) : WatToken :=
  l.token.getD { ty := .End, start := ⟨0, 0, 0⟩, endPos := ⟨0, 0, 0⟩ }

def WatLexer.current_token_content (l : WatLexer) : List Byte :=
  let t := l.current_token
  (l.scan.source.drop t.start.position).take (t.endPos.position - t.start.position)

/-- rewind of lexer.rs.  The source panics when no past token exists
(message: Cannot rewind more than once or at the stream start); the panic
is modelled as none. -/
def WatLexer.rewind (l : WatLexer) : Option WatLexer :=
  match l.past_token with
  | none => none
  | some p =>
    let t := l.current_token
    some { scan := { source := l.scan.source,
                     position := t.start.position,
                     line := t.start.line,
                     line_start := t.start.position - t.start.column },
           token := some p, past_token := none }

/-- Observer: the first token produced by a fresh lexer over src. -/
def firstToken (src : List Byte) : Option WatToken :=
  match (WatLexer.new src).next with
  | .ok r => some r.1
  | .error _ => none

/-- Observer: the kind of the first token produced over src. -/
def firstTokenKind (src : List Byte) : Option WatTokenType :=
  (firstToken src).map WatToken.ty

/-
  Embedding of src/wat.rs: data model, numeric and string helpers, and the
  event-driven parser.  Rust panics (unwrap on None, unreachable,
  unimplemented, assert failures, explicit panic calls) are modelled as the
  PFail.panic outcome; WatParserError values returned through Result are
  PFail.perr.
-/

/-- Parser error value, mirroring wat.rs WatParserError. -/
structure WatParserError where
  message : String
  line : Nat
  column : Nat
deriving DecidableEq, Repr

inductive WatValType where
  | I32
  | I64
  | F32
  | F64
deriving DecidableEq, Repr

structure WatLimits where
  min : Nat
  max : Option Nat
deriving DecidableEq, Repr

structure WatMemoryType where
  limits : WatLimits
  shared : Bool
deriving DecidableEq, Repr

/-- WatTableType of wat.rs is an empty enum (no values). -/
inductive WatTableType : Type
deriving DecidableEq

/-- WatGlobalType of wat.rs is an empty enum (no values). -/
inductive WatGlobalType : Type
deriving DecidableEq

structure WatParam where
  id : Option (List Byte)
  valtype : WatValType
deriving DecidableEq, Repr

structure WatResult where
  valtype : WatValType
deriving DecidableEq, Repr

structure WatLocal where
  id : Option (List Byte)
  valtype : WatValType
deriving DecidableEq, Repr

inductive WatSign where
  | Positive
  | Negative
deriving DecidableEq, Repr

inductive WatFloat where
  | Number (sign : WatSign) (data : List Byte) (power : Int)
  | NaN (sign : WatSign) (payload : Option (List Byte))
  | Inf (sign : WatSign)
deriving DecidableEq, Repr

inductive WatInstructionArg where
  | ID (id : List Byte)
  | Unsigned (data : List Byte)
  | Signed (sign : WatSign) (data : List Byte)
  | Float (f : WatFloat)
  | Flags (keyword : List Byte) (value : Nat)
deriving DecidableEq, Repr

structure WatTypeuse where
  id : Option (List Byte)
  params : List WatParam
  results : List WatResult
deriving DecidableEq, Repr

def WatTypeuse.empty : WatTypeuse :=
  { id := none, params := [], results := [] }

inductive WatImport where
  | Func (id : Option (List Byte)) (typeuse : WatTypeuse)
  | Table (id : Option (List Byte)) (tabletype : WatTableType)
  | Memory (id : Option (List Byte)) (memtype : WatMemoryType)
  | Global (id : Option (List Byte)) (globaltype : WatGlobalType)
deriving DecidableEq

/-- Decimal digit value used by the u32 string parser. -/
def decDigitValue (c : Byte) : Option Nat :=
  if 48 ≤ c && c ≤ 57 then some (c - 48) else none

/-- Hex digit value used by u32::from_str_radix with radix 16. -/
def hexDigitValue (c : Byte) : Option Nat :=
  if 48 ≤ c && c ≤ 57 then some (c - 48)
  else if 65 ≤ c && c ≤ 70 then some (c - 55)
  else if 97 ≤ c && c ≤ 102 then some (c - 87)
  else none

def digits_value_loop (radix : Nat) (digitVal : Byte → Option Nat) : List Byte → Nat → Option Nat
  | [], acc => some acc
  | c :: rest, acc =>
    match digitVal c with
    | none => none
    | some d => digits_value_loop radix digitVal rest (acc * radix + d)

/-- Rust u32 string parsing (used by parse and from_str_radix): an optional
leading plus sign, then one or more digits of the radix, with an error on
any other byte or on overflow past the u32 range. -/
def from_str_radix (radix : Nat) (digitVal : Byte → Option Nat) (bytes : List Byte) : Option Nat :=
  let bytes := if bytes.getD 0 0 == 43 then bytes.drop 1 else bytes
  if bytes.isEmpty then none
  else
    match digits_value_loop radix digitVal bytes 0 with
    | none => none
    | some v => if v < 4294967296 then some v else none

def parse_hexnum_u32 (bytes : List Byte) : Option Nat :=
  from_str_radix 16 hexDigitValue bytes

/-- parse_u32 of wat.rs.  The hex-prefix test in the source compares
bytes[0] with both the 0 byte and the x byte (a dead condition, translated
faithfully), so the hex branch is never taken. -/
def parse_u32 (bytes : List Byte) : Option Nat :=
  if bytes.length > 2 && bytes.getD 0 0 == 48 && bytes.getD 0 0 == 120 then
    parse_hexnum_u32 (bytes.drop 2)
  else from_str_radix 10 decDigitValue bytes

/-- The byte-emitting loop of convert_u32_to_data: while num is at least
0x100, shift right by 8 and push the low byte.  Fuel 4 suffices for every
u32 input. -/
def convert_u32_to_data_loop : Nat → Nat → List Byte
  | 0, _ => []
  | fuel + 1, num =>
    if 256 ≤ num then
      let num := num / 256
      (num % 256) :: convert_u32_to_data_loop fuel num
    else []

def convert_u32_to_data (maybe_num : Option Nat) : Option (List Byte) :=
  match maybe_num with
  | none => none
  | some num => some ((num % 256) :: convert_u32_to_data_loop 4 num)

/-- parse_hexnum of wat.rs; the assert on emptiness and the unimplemented
branch for long literals are panics. -/
def parse_hexnum (bytes : List Byte) : Except String (Option (List Byte)) :=
  if bytes.length == 0 then .error "assertion failed: bytes.len() > 0"
  else if bytes.length ≤ 8 then .ok (convert_u32_to_data (parse_hexnum_u32 bytes))
  else .error "not implemented"

/-- parse_num of wat.rs, with the same dead hex-prefix condition as
parse_u32 translated faithfully. -/
def parse_num (bytes : List Byte) : Except String (Option (List Byte)) :=
  if bytes.length > 2 && bytes.getD 0 0 == 48 && bytes.getD 0 0 == 120 then
    parse_hexnum (bytes.drop 2)
  else if bytes.length == 0 then .error "assertion failed: bytes.len() > 0"
  else if bytes.length ≤ 9 then .ok (convert_u32_to_data (parse_u32 bytes))
  else .error "not implemented"

/-- parse_float of wat.rs returns a fixed placeholder value for every
input (the FIXME in the source). -/
def parse_float (_bytes : List Byte) : Option (WatSign × List Byte × Int) :=
  some (WatSign.Positive, [], 0)

/-- UTF-8 encoding of a Unicode scalar value, as produced by
char::encode_utf8. -/
def utf8Encode (c : Nat) : List Byte :=
  if c < 128 then [c]
  else if c < 2048 then [192 + c / 64, 128 + c % 64]
  else if c < 65536 then [224 + c / 4096, 128 + (c / 64) % 64, 128 + c % 64]
  else [240 + c / 262144, 128 + (c / 4096) % 64, 128 + (c / 64) % 64, 128 + c % 64]

/-- Validity of a byte list as UTF-8, as checked by String::from_utf8. -/
def utf8_valid : List Byte → Bool
  | [] => true
  | c :: rest =>
    if c < 128 then utf8_valid rest
    else if c < 194 then false
    else if c < 224 then
      match rest with
      | c1 :: rest => 128 ≤ c1 && c1 < 192 && utf8_valid rest
      | [] => false
    else if c < 240 then
      match rest with
      | c1 :: c2 :: rest =>
        (if c == 224 then 160 ≤ c1 else 128 ≤ c1) &&
        (if c == 237 then c1 < 160 else c1 < 192) &&
        (128 ≤ c2 && c2 < 192) && utf8_valid rest
      | _ => false
    else if c < 245 then
      match rest with
      | c1 :: c2 :: c3 :: rest =>
        (if c == 240 then 144 ≤ c1 else 128 ≤ c1) &&
        (if c == 244 then c1 < 144 else c1 < 192) &&
        (128 ≤ c2 && c2 < 192) && (128 ≤ c3 && c3 < 192) && utf8_valid rest
      | _ => false
    else false

/-- Index of the first closing-brace byte at or after i, none when the
byte list runs out first (the source then panics on out-of-bounds). -/
def find_close_brace (bytes : List Byte) : Nat → Nat → Option Nat
  | 0, _ => none
  | fuel + 1, i =>
    if i < bytes.length then
      if bytes.getD i 0 == 125 then some i else find_close_brace bytes fuel (i + 1)
    else none

/-- The unescape loop of parse_string; all failure modes of the source
(explicit panic, out-of-bounds index, unwrap on None, assert failure) are
panics. -/
def parse_string_loop (bytes : List Byte) (last : Nat) : Nat → Nat → List Byte → Except String (List Byte)
  | 0, _, _ => .error "[out of fuel]"
  | fuel + 1, i, acc =>
    if last ≤ i then .ok acc
    else
      let ch := bytes.getD i 0
      let i := i + 1
      if !(ch == 92) then parse_string_loop bytes last fuel i (acc ++ [ch])
      else
        let escape := bytes.getD i 0
        let i := i + 1
        if escape == 116 then parse_string_loop bytes last fuel i (acc ++ [9])
        else if escape == 110 then parse_string_loop bytes last fuel i (acc ++ [10])
        else if escape == 114 then parse_string_loop bytes last fuel i (acc ++ [13])
        else if escape == 34 then parse_string_loop bytes last fuel i (acc ++ [34])
        else if escape == 39 then parse_string_loop bytes last fuel i (acc ++ [39])
        else if escape == 92 then parse_string_loop bytes last fuel i (acc ++ [92])
        else if escape == 117 then
          if !(bytes.getD i 0 == 123) then .error "panicked in parse_string"
          else
            let i := i + 1
            match find_close_brace bytes (bytes.length + 1) i with
            | none => .error "index out of bounds in parse_string"
            | some i2 =>
              match parse_hexnum_u32 ((bytes.drop i).take (i2 - i)) with
              | none => .error "called Option::unwrap() on a None value"
              | some hexnum =>
                if 1114112 ≤ hexnum || (55296 ≤ hexnum && hexnum < 57344) then
                  .error "called Option::unwrap() on a None value"
                else
                  let acc := acc ++ utf8Encode hexnum
                  if !(i2 < last) then .error "assertion failed: i < last"
                  else parse_string_loop bytes last fuel (i2 + 1) acc
        else .error "panicked in parse_string"

/-- parse_string of wat.rs: strip the surrounding quotes and decode the
escapes; String::from_utf8 at the end panics on invalid UTF-8. -/
def parse_string (bytes : List Byte) : Except String (List Byte) :=
  if !(bytes.length ≥ 2 && bytes.getD 0 0 == 34 && bytes.getD (bytes.length - 1) 0 == 34) then
    .error "assertion failed in parse_string"
  else
    match parse_string_loop bytes (bytes.length - 1) (bytes.length + 1) 1 [] with
    | .error m => .error m
    | .ok result =>
      if utf8_valid result then .ok result
      else .error "called Result::unwrap() on an Err value"

/-- Parser state, mirroring wat.rs WatParserState. -/
inductive WatParserState where
  | Initial
  | End
  | Error (e : WatParserError)
  | StartModule (id : Option (List Byte))
  | EndModule
  | Import (modname : List Byte) (fieldname : List Byte) (imp : WatImport)
  | StartFunc (id : Option (List Byte)) (export_name : Option (List Byte))
      (typeuse : WatTypeuse) (locals : List WatLocal)
  | EndFunc
  | CodeOperator (instruction : List Byte) (args : List WatInstructionArg)
      (group : Bool) (position : WatPosition)
  | CodeOperatorEnd
deriving DecidableEq

/-- Failure outcome of a parser routine: an error value carried through
Result, or a Rust panic. -/
inductive PFail where
  | perr (e : WatParserError)
  | panic (msg : String)
deriving DecidableEq

abbrev PRes (α : Type) := Except PFail α

structure WatParser where
  lexer : WatLexer
  state : WatParserState
  func_depth : Option Nat
deriving DecidableEq

def WatParser.new (source : List Byte) : WatParser :=
  { lexer := WatLexer.new source, state := .Initial, func_depth := none }

def WatParser.current_token (p : WatParser) : WatToken :=
  p.lexer.current_token

def WatParser.current_token_type (p : WatParser) : WatTokenType :=
  p.lexer.current_token.ty

def WatParser.current_token_content (p : WatParser) : List Byte :=
  p.lexer.current_token_content

def WatParser.create_error (p : WatParser) (message : String) : WatParserError :=
  { message := message,
    line := p.current_token.start.line,
    column := p.current_token.start.column }

def WatParser.advance (p : WatParser) : PRes WatParser :=
  match p.lexer.next with
  | .ok r => .ok { p with lexer := r.2 }
  | .error err => .error (.perr { message := err.message, line := err.line, column := err.column })

def WatParser.rewind_token (p : WatParser) : PRes WatParser :=
  match p.lexer.rewind with
  | none => .error (.panic "Cannot rewind more than once or at the stream start")
  | some l => .ok { p with lexer := l }

def WatParser.maybe_open_paren (p : WatParser) : PRes (Bool × WatParser) :=
  match p.current_token_type with
  | .OpenParen =>
    match p.advance with
    | .error e => .error e
    | .ok p => .ok (true, p)
  | _ => .ok (false, p)

def WatParser.expect_open_paren (p : WatParser) : PRes WatParser := do
  let (b, p) ← p.maybe_open_paren
  if b then return p else throw (.perr (p.create_error "( is expected"))

def WatParser.maybe_close_paren (p : WatParser) : PRes (Bool × WatParser) :=
  match p.current_token_type with
  | .CloseParen =>
    match p.advance with
    | .error e => .error e
    | .ok p => .ok (true, p)
  | _ => .ok (false, p)

def WatParser.expect_close_paren (p : WatParser) : PRes WatParser := do
  let (b, p) ← p.maybe_close_paren
  if b then return p else throw (.perr (p.create_error ") is expected"))

def WatParser.maybe_exact_keyword (p : WatParser) (keyword : List Byte) : PRes (Bool × WatParser) :=
  match p.current_token_type with
  | .Keyword =>
    if p.current_token_content == keyword then
      match p.advance with
      | .error e => .error e
      | .ok p => .ok (true, p)
    else .ok (false, p)
  | _ => .ok (false, p)

def WatParser.expect_exact_keyword (p : WatParser) (keyword : List Byte) : PRes WatParser := do
  let (b, p) ← p.maybe_exact_keyword keyword
  if b then return p else throw (.perr (p.create_error "?? keyword is expected"))

def WatParser.is_keyword (p : WatParser) : Bool :=
  match p.current_token_type with
  | .Keyword => true
  | _ => false

def WatParser.get_keyword (p : WatParser) : PRes (List Byte) :=
  if p.is_keyword then .ok p.current_token_content
  else .error (.perr (p.create_error "a keyword is expected"))

def WatParser.is_memarg_flag (p : WatParser) : PRes Bool := do
  let content ← p.get_keyword
  return (content.length > 7 && content.take 7 == [111, 102, 102, 115, 101, 116, 61]) ||
         (content.length > 6 && content.take 6 == [102, 108, 97, 103, 115, 61])

def WatParser.maybe_id (p : WatParser) : PRes (Option (List Byte) × WatParser) :=
  match p.current_token_type with
  | .ID =>
    let id := p.current_token_content
    match p.advance with
    | .error e => .error e
    | .ok p => .ok (some id, p)
  | _ => .ok (none, p)

def WatParser.read_id (p : WatParser) : PRes (List Byte × WatParser) := do
  let (id, p) ← p.maybe_id
  match id with
  | some id => return (id, p)
  | none => throw (.perr (p.create_error "id is expected"))

/-- read_u32 of wat.rs; the fall-through for a non-Unsigned token is an
unreachable panic in the source. -/
def WatParser.read_u32 (p : WatParser) : PRes (Nat × WatParser) :=
  match p.current_token_type with
  | .Unsigned =>
    match parse_u32 p.current_token_content with
    | none => .error (.perr (p.create_error "unable to read u32"))
    | some result =>
      match p.advance with
      | .error e => .error e
      | .ok p => .ok (result, p)
  | _ => .error (.panic "internal error: entered unreachable code")

def WatParser.read_name (p : WatParser) : PRes (List Byte × WatParser) :=
  match p.current_token_type with
  | .String =>
    match parse_string p.current_token_content with
    | .error m => .error (.panic m)
    | .ok name =>
      match p.advance with
      | .error e => .error e
      | .ok p => .ok (name, p)
  | _ => .error (.panic "internal error: entered unreachable code")

def WatParser.read_keyword (p : WatParser) : PRes (List Byte × WatParser) :=
  match p.current_token_type with
  | .Keyword =>
    let keyword := p.current_token_content
    match p.advance with
    | .error e => .error e
    | .ok p => .ok (keyword, p)
  | _ => .error (.panic "internal error: entered unreachable code")

def WatParser.read_limits (p : WatParser) : PRes (WatLimits × WatParser) := do
  let (mn, p) ← p.read_u32
  match p.current_token_type with
  | .Unsigned =>
    let (mx, p) ← p.read_u32
    return ({ min := mn, max := some mx }, p)
  | _ => return ({ min := mn, max := none }, p)

def WatParser.read_memtype (p : WatParser) : PRes (WatMemoryType × WatParser) := do
  let (op, p) ← p.maybe_open_paren
  if op then do
    let p ← p.expect_exact_keyword [115, 104, 97, 114, 101, 100]
    let (limits, p) ← p.read_limits
    let p ← p.expect_close_paren
    return ({ limits := limits, shared := true }, p)
  else do
    let (limits, p) ← p.read_limits
    return ({ limits := limits, shared := false }, p)

def WatParser.read_start_module (p : WatParser) : PRes WatParser := do
  let p ← p.advance
  let p ← p.expect_open_paren
  let p ← p.expect_exact_keyword [109, 111, 100, 117, 108, 101]
  let (id, p) ← p.maybe_id
  return { p with state := .StartModule id }

def WatParser.read_memory_import (p : WatParser) : PRes (WatImport × WatParser) := do
  let p ← p.advance
  let (id, p) ← p.maybe_id
  let (memtype, p) ← p.read_memtype
  return (.Memory id memtype, p)

/-- read_import of wat.rs; descriptor keywords other than memory hit the
unimplemented macro in the source, modelled as a panic. -/
def WatParser.read_import (p : WatParser) : PRes WatParser := do
  let p ← p.advance
  let (modname, p) ← p.read_name
  let (fieldname, p) ← p.read_name
  let p ← p.expect_open_paren
  let kw ← p.get_keyword
  if kw == [109, 101, 109, 111, 114, 121] then do
    let (imp, p) ← p.read_memory_import
    let p ← p.expect_close_paren
    let p := { p with state := .Import modname fieldname imp }
    let p ← p.expect_close_paren
    return p
  else throw (.panic "not implemented: nyi")

/-- read_valtype of wat.rs.  The source matches the f64 keyword twice: the
first arm maps it to I64 and the second (unreachable) to F64; there is no
arm for i64, which therefore falls into the unimplemented panic.  Both
quirks are translated faithfully. -/
def WatParser.read_valtype (p : WatParser) : PRes (WatValType × WatParser) := do
  let kw ← p.get_keyword
  let valtype ←
    if kw == [105, 51, 50] then pure WatValType.I32
    else if kw == [102, 54, 52] then pure WatValType.I64
    else if kw == [102, 51, 50] then pure WatValType.F32
    else if kw == [102, 54, 52] then pure WatValType.F64
    else (throw (.panic "not implemented: nyi") : PRes WatValType)
  let p ← p.advance
  return (valtype, p)

/-- Inner loop of a param group without id: further valtypes while the
current token is a keyword. -/
def read_param_valtypes : Nat → WatParser → List WatParam → PRes (List WatParam × WatParser)
  | 0, _, _ => throw (.panic "[out of fuel]")
  | fuel + 1, p, acc =>
    if p.is_keyword then do
      let (vt, p) ← p.read_valtype
      read_param_valtypes fuel p (acc ++ [{ id := none, valtype := vt }])
    else return (acc, p)

/-- The param-group loop of read_typeuse_after_open_paren.  The Bool in
the result is true when the loop was left because the keyword did not
match (so results may follow), false on the early return taken when no
open paren follows the closed group. -/
def read_params_loop : Nat → WatParser → List WatParam → PRes ((List WatParam × Bool) × WatParser)
  | 0, _, _ => throw (.panic "[out of fuel]")
  | fuel + 1, p, params => do
    let (isParam, p) ← p.maybe_exact_keyword [112, 97, 114, 97, 109]
    if !isParam then return ((params, true), p)
    else do
      let (param_id, p) ← p.maybe_id
      let no_id := param_id.isNone
      let (vt, p) ← p.read_valtype
      let params := params ++ [{ id := param_id, valtype := vt }]
      let (params, p) ←
        if no_id then read_param_valtypes (p.lexer.scan.source.length + 1) p params
        else pure (params, p)
      let p ← p.expect_close_paren
      let (op, p) ← p.maybe_open_paren
      if !op then return ((params, false), p)
      else read_params_loop fuel p params

def read_result_valtypes : Nat → WatParser → List WatResult → PRes (List WatResult × WatParser)
  | 0, _, _ => throw (.panic "[out of fuel]")
  | fuel + 1, p, acc =>
    if p.is_keyword then do
      let (vt, p) ← p.read_valtype
      read_result_valtypes fuel p (acc ++ [{ valtype := vt }])
    else return (acc, p)

/-- The result-group loop of read_typeuse_after_open_paren, with the same
Bool convention as read_params_loop. -/
def read_results_loop : Nat → WatParser → List WatResult → PRes ((List WatResult × Bool) × WatParser)
  | 0, _, _ => throw (.panic "[out of fuel]")
  | fuel + 1, p, results => do
    let (isResult, p) ← p.maybe_exact_keyword [114, 101, 115, 117, 108, 116]
    if !isResult then return ((results, true), p)
    else do
      let (vt, p) ← p.read_valtype
      let results := results ++ [{ valtype := vt }]
      let (results, p) ← read_result_valtypes (p.lexer.scan.source.length + 1) p results
      let p ← p.expect_close_paren
      let (op, p) ← p.maybe_open_paren
      if !op then return ((results, false), p)
      else read_results_loop fuel p results

/-- Shared tail of read_typeuse_after_open_paren: the param groups then
the result groups. -/
def read_typeuse_params (id : Option (List Byte)) (p : WatParser) :
    PRes ((WatTypeuse × Bool) × WatParser) := do
  let ((params, cont), p) ← read_params_loop (p.lexer.scan.source.length + 1) p []
  if !cont then return (({ id := id, params := params, results := [] }, false), p)
  else do
    let ((results, cont2), p) ← read_results_loop (p.lexer.scan.source.length + 1) p []
    if !cont2 then return (({ id := id, params := params, results := results }, false), p)
    else return (({ id := id, params := params, results := results }, true), p)

/-- read_typeuse_after_open_paren of wat.rs: the returned Bool is the
keyword_expected flag telling the caller to rewind the unconsumed open
paren. -/
def WatParser.read_typeuse_after_open_paren (p : WatParser) :
    PRes ((WatTypeuse × Bool) × WatParser) := do
  let (isType, p) ← p.maybe_exact_keyword [116, 121, 112, 101]
  if isType then do
    let (id, p) ← p.maybe_id
    match id with
    | none => throw (.perr (p.create_error "id is expected for typeuse"))
    | some _ => do
      let p ← p.expect_close_paren
      let (op, p) ← p.maybe_open_paren
      if !op then return (({ id := id, params := [], results := [] }, false), p)
      else read_typeuse_params id p
  else read_typeuse_params none p

def WatParser.read_typeuse (p : WatParser) : PRes (WatTypeuse × WatParser) := do
  let (op, p) ← p.maybe_open_paren
  if op then do
    let ((typeuse, keyword_expected), p) ← p.read_typeuse_after_open_paren
    if keyword_expected then do
      let p ← p.rewind_token
      return (typeuse, p)
    else return (typeuse, p)
  else return (WatTypeuse.empty, p)

def read_local_valtypes : Nat → WatParser → List WatLocal → PRes (List WatLocal × WatParser)
  | 0, _, _ => throw (.panic "[out of fuel]")
  | fuel + 1, p, acc =>
    if p.is_keyword then do
      let (vt, p) ← p.read_valtype
      read_local_valtypes fuel p (acc ++ [{ id := none, valtype := vt }])
    else return (acc, p)

/-- read_locals_after_open_paren of wat.rs, with the same Bool convention
as read_params_loop. -/
def read_locals_loop : Nat → WatParser → List WatLocal → PRes ((List WatLocal × Bool) × WatParser)
  | 0, _, _ => throw (.panic "[out of fuel]")
  | fuel + 1, p, locals => do
    let (isLocal, p) ← p.maybe_exact_keyword [108, 111, 99, 97, 108]
    if !isLocal then return ((locals, true), p)
    else do
      let (id, p) ← p.maybe_id
      let no_id := id.isNone
      let (vt, p) ← p.read_valtype
      let locals := locals ++ [{ id := id, valtype := vt }]
      let (locals, p) ←
        if no_id then read_local_valtypes (p.lexer.scan.source.length + 1) p locals
        else pure (locals, p)
      let p ← p.expect_close_paren
      let (op, p) ← p.maybe_open_paren
      if !op then return ((locals, false), p)
      else read_locals_loop fuel p locals

/-- Tail of read_func after the inline import and export abbreviations:
typeuse, then locals, then StartFunc with func_depth set to zero. -/
def read_func_rest (id : Option (List Byte)) (export_name : Option (List Byte))
    (p : WatParser) : PRes WatParser := do
  let ((typeuse, keyword_expected), p) ← p.read_typeuse_after_open_paren
  let (locals, p) ←
    if keyword_expected then do
      let ((locals, kw2), p) ← read_locals_loop (p.lexer.scan.source.length + 1) p []
      let p ← if kw2 then p.rewind_token else pure p
      pure (locals, p)
    else pure ([], p)
  return { p with state := .StartFunc id export_name typeuse locals, func_depth := some 0 }

/-- read_func of wat.rs.  Note the early return in the inline-export
abbreviation when no open paren follows the export group: the source sets
the StartFunc state there without assigning func_depth; this is translated
faithfully. -/
def WatParser.read_func (p : WatParser) : PRes WatParser := do
  let p ← p.advance
  let (id, p) ← p.maybe_id
  let (op, p) ← p.maybe_open_paren
  if op then do
    let (isImport, p) ← p.maybe_exact_keyword [105, 109, 112, 111, 114, 116]
    if isImport then do
      let (modname, p) ← p.read_name
      let (fieldname, p) ← p.read_name
      let p ← p.expect_close_paren
      let (typeuse, p) ← p.read_typeuse
      let p ← p.expect_close_paren
      return { p with state := .Import modname fieldname (.Func id typeuse) }
    else do
      let (isExport, p) ← p.maybe_exact_keyword [101, 120, 112, 111, 114, 116]
      if isExport then do
        let (name, p) ← p.read_name
        let p ← p.expect_close_paren
        let (op2, p) ← p.maybe_open_paren
        if !op2 then
          return { p with state := .StartFunc id (some name) WatTypeuse.empty [] }
        else read_func_rest id (some name) p
      else read_func_rest id none p
  else
    return { p with state := .StartFunc id none WatTypeuse.empty [],
                    func_depth := some 0 }

/-- read_memarg_flag of wat.rs stores zero for the flag value (the FIXME
in the source). -/
def WatParser.read_memarg_flag (p : WatParser) : PRes (WatInstructionArg × WatParser) := do
  let (keyword, p) ← p.read_keyword
  return (.Flags keyword 0, p)

def WatParser.read_arg_id (p : WatParser) : PRes (WatInstructionArg × WatParser) := do
  let (id, p) ← p.read_id
  return (.ID id, p)

/-- read_arg_signed of wat.rs; the assert on the sign byte is a panic. -/
def WatParser.read_arg_signed (p : WatParser) : PRes (WatInstructionArg × WatParser) := do
  let signed := p.current_token_content
  if !(signed.getD 0 0 == 45 || signed.getD 0 0 == 43) then
    throw (.panic "assertion failed on sign byte")
  else do
    let sign := if signed.getD 0 0 == 45 then WatSign.Negative else WatSign.Positive
    let data ←
      match parse_num (signed.drop 1) with
      | .error m => (throw (.panic m) : PRes (Option (List Byte)))
      | .ok d => pure d
    match data with
    | none => throw (.perr (p.create_error "Unable to parse signed"))
    | some data => do
      let p ← p.advance
      return (.Signed sign data, p)

def WatParser.read_arg_unsigned (p : WatParser) : PRes (WatInstructionArg × WatParser) := do
  let data ←
    match parse_num p.current_token_content with
    | .error m => (throw (.panic m) : PRes (Option (List Byte)))
    | .ok d => pure d
  match data with
  | none => throw (.perr (p.create_error "Unable to parse unsigned"))
  | some data => do
    let p ← p.advance
    return (.Unsigned data, p)

/-- read_arg_float of wat.rs: wrap the placeholder parse_float result into
a Float Number argument. -/
def WatParser.read_arg_float (p : WatParser) : PRes (WatInstructionArg × WatParser) := do
  match parse_float p.current_token_content with
  | none => throw (.perr (p.create_error "Unable to parse float"))
  | some r => do
    let p ← p.advance
    return (.Float (.Number r.1 r.2.1 r.2.2), p)

/-- The argument-collection loop of read_func_body. -/
def read_args_loop : Nat → WatParser → List WatInstructionArg →
    PRes (List WatInstructionArg × WatParser)
  | 0, _, _ => throw (.panic "[out of fuel]")
  | fuel + 1, p, args =>
    match p.current_token_type with
    | .End => return (args, p)
    | .Keyword => do
      let flag ← p.is_memarg_flag
      if flag then do
        let (a, p) ← p.read_memarg_flag
        read_args_loop fuel p (args ++ [a])
      else return (args, p)
    | .OpenParen => return (args, p)
    | .CloseParen => return (args, p)
    | .ID => do
      let (a, p) ← p.read_arg_id
      read_args_loop fuel p (args ++ [a])
    | .Signed => do
      let (a, p) ← p.read_arg_signed
      read_args_loop fuel p (args ++ [a])
    | .Unsigned => do
      let (a, p) ← p.read_arg_unsigned
      read_args_loop fuel p (args ++ [a])
    | .Float => do
      let (a, p) ← p.read_arg_float
      read_args_loop fuel p (args ++ [a])
    | _ => throw (.perr (p.create_error "unexpected token in the instruction"))

/-- read_func_body of wat.rs.  Both unwraps on func_depth in the source
panic when func_depth is None; they are modelled as panics. -/
def WatParser.read_func_body (p : WatParser) : PRes WatParser := do
  let (cp, p) ← p.maybe_close_paren
  if cp then
    match p.func_depth with
    | none => throw (.panic "called Option::unwrap() on a None value")
    | some d =>
      if d == 0 then return { p with state := .EndFunc, func_depth := none }
      else return { p with state := .CodeOperatorEnd, func_depth := some (d - 1) }
  else do
    let (group, p) ← p.maybe_open_paren
    let position := p.current_token.start
    let (instruction, p) ← p.read_keyword
    let (args, p) ← read_args_loop (p.lexer.scan.source.length + 1) p []
    let p ←
      if group then
        match p.func_depth with
        | none => (throw (.panic "called Option::unwrap() on a None value") : PRes WatParser)
        | some d => pure { p with func_depth := some (d + 1) }
      else pure p
    return { p with state := .CodeOperator instruction args group position }

/-- read_module_field of wat.rs; field keywords other than import and func
hit the unreachable macro in the source, modelled as a panic. -/
def WatParser.read_module_field (p : WatParser) : PRes WatParser := do
  let (cp, p) ← p.maybe_close_paren
  if cp then return { p with state := .EndModule }
  else do
    let p ← p.expect_open_paren
    let kw ← p.get_keyword
    if kw == [105, 109, 112, 111, 114, 116] then p.read_import
    else if kw == [102, 117, 110, 99] then p.read_func
    else throw (.panic "internal error: entered unreachable code: nyi")

def WatParser.find_end (p : WatParser) : PRes WatParser :=
  match p.current_token_type with
  | .End => .ok { p with state := .End }
  | _ => .error (.perr (p.create_error "unexpected content after the module"))

/-- parse of wat.rs (one step of the state machine).  A parser error value
becomes the terminal Error state; a panic is the Except error outcome.
Stepping a terminal state is itself a panic in the source. -/
def WatParser.parse (p : WatParser) : Except String WatParser :=
  let res : PRes WatParser :=
    match p.state with
    | .End => .error (.panic "WatParser at the end of stream")
    | .Error _ => .error (.panic "WatParser in error state")
    | .EndModule => p.find_end
    | .Initial => p.read_start_module
    | .StartModule _ => p.read_module_field
    | .EndFunc => p.read_module_field
    | .Import _ _ _ => p.read_module_field
    | .StartFunc _ _ _ _ => p.read_func_body
    | .CodeOperator _ _ _ _ => p.read_func_body
    | .CodeOperatorEnd => p.read_func_body
  match res with
  | .ok p2 => .ok p2
  | .error (.perr e) => .ok { p with state := .Error e }
  | .error (.panic m) => .error m

/-- Outcome of one step as seen by the driver loop: the new state, or a
panic message. -/
inductive StepOut where
  | state (s : WatParserState)
  | panicked (msg : String)
deriving DecidableEq

/-- The states observed over the first n calls of parse, ending early with
the panic message if a call panics. -/
def parseTrace : Nat → WatParser → List StepOut
  | 0, _ => []
  | n + 1, p =>
    match p.parse with
    | .ok p2 => .state p2.state :: parseTrace n p2
    | .error m => [.panicked m]

def stepN : Nat → WatParser → Except String WatParser
  | 0, p => .ok p
  | n + 1, p =>
    match p.parse with
    | .ok p2 => stepN n p2
    | .error m => .error m

/-- Observer: the parser state after n steps, none if some step panicked. -/
def stateAfter (n : Nat) (p : WatParser) : Option WatParserState :=
  match stepN n p with
  | .ok p2 => some p2.state
  | .error _ => none

/-- Observer: func_depth after n steps, none if some step panicked. -/
def funcDepthAfter (n : Nat) (p : WatParser) : Option (Option Nat) :=
  match stepN n p with
  | .ok p2 => some p2.func_depth
  | .error _ => none

/-
  Concrete inputs and comparison definitions used by the claims.
-/

/-- Little-endian reference encoding named by the claim about
convert_u32_to_data.  Modelled from the spec: emit the low-order byte and
continue with the value shifted right by eight until the remaining value
is zero, producing at least one byte (so zero encodes as a single zero
byte).  This is the comparison encoding, not code of the repository. -/
def spec_le_bytes_loop : Nat → Nat → List Byte
  | 0, _ => []
  | fuel + 1, num =>
    (num % 256) :: (if num / 256 = 0 then [] else spec_le_bytes_loop fuel (num / 256))

def spec_le_bytes (num : Nat) : List Byte :=
  spec_le_bytes_loop 5 num

/-- Source bytes of (module (func (export "e"))). -/
def c1_src : List Byte :=
  [40, 109, 111, 100, 117, 108, 101, 32, 40, 102, 117, 110, 99, 32, 40, 101, 120, 112,
   111, 114, 116, 32, 34, 101, 34, 41, 41, 41]

/-- Source bytes of (module (table 1 funcref)). -/
def c2_table_src : List Byte :=
  [40, 109, 111, 100, 117, 108, 101, 32, 40, 116, 97, 98, 108, 101, 32, 49, 32, 102,
   117, 110, 99, 114, 101, 102, 41, 41]

/-- Source bytes of (module (import "a" "b" (global i32))). -/
def c2_global_src : List Byte :=
  [40, 109, 111, 100, 117, 108, 101, 32, 40, 105, 109, 112, 111, 114, 116, 32, 34, 97,
   34, 32, 34, 98, 34, 32, 40, 103, 108, 111, 98, 97, 108, 32, 105, 51, 50, 41, 41, 41]

/-- Source bytes of the five-byte string literal: quote, a, backslash, n,
quote. -/
def c3_src : List Byte := [34, 97, 92, 110, 34]

/-- Source bytes of (module (func (param f64))). -/
def c4_f64_src : List Byte :=
  [40, 109, 111, 100, 117, 108, 101, 32, 40, 102, 117, 110, 99, 32, 40, 112, 97, 114,
   97, 109, 32, 102, 54, 52, 41, 41, 41]

/-- Source bytes of (module (func (param i64))). -/
def c4_i64_src : List Byte :=
  [40, 109, 111, 100, 117, 108, 101, 32, 40, 102, 117, 110, 99, 32, 40, 112, 97, 114,
   97, 109, 32, 105, 54, 52, 41, 41, 41]

/-- Source bytes of (module (func (i32.add (i32.const 1) (i32.const 2)))). -/
def c5_src : List Byte :=
  [40, 109, 111, 100, 117, 108, 101, 32, 40, 102, 117, 110, 99, 32, 40, 105, 51, 50,
   46, 97, 100, 100, 32, 40, 105, 51, 50, 46, 99, 111, 110, 115, 116, 32, 49, 41, 32,
   40, 105, 51, 50, 46, 99, 111, 110, 115, 116, 32, 50, 41, 41, 41, 41]

/-- Source bytes of 1e5. -/
def c6_dec_src : List Byte := [49, 101, 53]

/-- Source bytes of 0x1p2. -/
def c6_hex_src : List Byte := [48, 120, 49, 112, 50]

/-- Source bytes of the three-byte run a, apostrophe, b. -/
def c7_src : List Byte := [97, 39, 98]

/-- Lexer over the source a-space-b after producing its first token (the
one-byte keyword a). -/
def c8_lexA : WatLexer :=
  { scan := { source := [97, 32, 98], position := 1, line := 1, line_start := 0 },
    token := some { ty := .Keyword, start := ⟨1, 0, 0⟩, endPos := ⟨1, 1, 1⟩ },
    past_token := none }

/-- The second token of the source a-space-b: the one-byte keyword b. -/
def c8_tokB : WatToken :=
  { ty := .Keyword, start := ⟨1, 2, 2⟩, endPos := ⟨1, 3, 3⟩ }

/-- Lexer state after producing the second token of a-space-b. -/
def c8_lexB : WatLexer :=
  { scan := { source := [97, 32, 98], position := 3, line := 1, line_start := 0 },
    token := some c8_tokB,
    past_token := some { ty := .Keyword, start := ⟨1, 0, 0⟩, endPos := ⟨1, 1, 1⟩ } }

/-- Parser positioned on a Float token (the literal nan) inside a function
body, used to exercise read_arg_float. -/
def c10_floatstate : WatParser :=
  { lexer := { scan := { source := [110, 97, 110], position := 3, line := 1, line_start := 0 },
               token := some { ty := .Float, start := ⟨1, 0, 0⟩, endPos := ⟨1, 3, 3⟩ },
               past_token := none },
    state := .StartFunc none none WatTypeuse.empty [],
    func_depth := some 0 }

/-- The parser c10_floatstate after read_arg_float consumed the Float token. -/
def c10_floatstate2 : WatParser :=
  { lexer := { scan := { source := [110, 97, 110], position := 3, line := 1, line_start := 0 },
               token := some { ty := .End, start := ⟨1, 3, 3⟩, endPos := ⟨1, 3, 3⟩ },
               past_token := some { ty := .Float, start := ⟨1, 0, 0⟩, endPos := ⟨1, 3, 3⟩ } },
    state := .StartFunc none none WatTypeuse.empty [],
    func_depth := some 0 }


/-- Decidable equality of Except values, used to state lexer and parser
results. -/
instance exceptDecEq {ε α : Type} [DecidableEq ε] [DecidableEq α] : DecidableEq (Except ε α)
  | .error x, .error y =>
    if h : x = y then .isTrue (by rw [h]) else .isFalse fun hh => h (Except.error.inj hh)
  | .error _, .ok _ => .isFalse fun hh => Except.noConfusion hh
  | .ok _, .error _ => .isFalse fun hh => Except.noConfusion hh
  | .ok x, .ok y =>
    if h : x = y then .isTrue (by rw [h]) else .isFalse fun hh => h (Except.ok.inj hh)

/-- The parser over c1_src after one step: state StartModule, lexer on the
open paren of the func field. -/
def c1_p1 : WatParser :=
  { lexer := { scan := { source := c1_src, position := 9, line := 1, line_start := 0 },
               token := some { ty := .OpenParen, start := ⟨1, 8, 8⟩, endPos := ⟨1, 9, 9⟩ },
               past_token := some { ty := .Keyword, start := ⟨1, 1, 1⟩, endPos := ⟨1, 7, 7⟩ } },
    state := .StartModule none, func_depth := none }

/-- The parser over c1_src after two steps: state StartFunc with the
export name, but func_depth still none (the early return of read_func
skipped the assignment). -/
def c1_p2 : WatParser :=
  { lexer := { scan := { source := c1_src, position := 27, line := 1, line_start := 0 },
               token := some { ty := .CloseParen, start := ⟨1, 26, 26⟩, endPos := ⟨1, 27, 27⟩ },
               past_token := some { ty := .CloseParen, start := ⟨1, 25, 25⟩, endPos := ⟨1, 26, 26⟩ } },
    state := .StartFunc none (some [101]) { id := none, params := [], results := [] } [],
    func_depth := none }

/-- The parser over c2_global_src after one step: state StartModule, lexer
on the open paren of the import field. -/
def c2g_p1 : WatParser :=
  { lexer := { scan := { source := c2_global_src, position := 9, line := 1, line_start := 0 },
               token := some { ty := .OpenParen, start := ⟨1, 8, 8⟩, endPos := ⟨1, 9, 9⟩ },
               past_token := some { ty := .Keyword, start := ⟨1, 1, 1⟩, endPos := ⟨1, 7, 7⟩ } },
    state := .StartModule none, func_depth := none }

/-
  Helper lemmas for unfolding traces one step at a time.
-/

theorem parseTrace_cons (n : Nat) (p q : WatParser) (h : p.parse = .ok q) :
    parseTrace (n + 1) p = .state q.state :: parseTrace n q := by
  rw [parseTrace, h]

theorem parseTrace_panic (n : Nat) (p : WatParser) (m : String) (h : p.parse = .error m) :
    parseTrace (n + 1) p = [.panicked m] := by
  rw [parseTrace, h]

theorem stepN_cons (n : Nat) (p q : WatParser) (h : p.parse = .ok q) :
    stepN (n + 1) p = stepN n q := by
  rw [stepN, h]

/-
  Claim theorems.
-/

/-- C5: parsing (module (func (i32.add (i32.const 1) (i32.const 2)))) by
repeated step calls emits exactly the event sequence StartModule with no
id, StartFunc with empty typeuse and no locals, CodeOperator i32.add with
no args and group true, CodeOperator i32.const with argument Unsigned 1
and group true, CodeOperatorEnd, CodeOperator i32.const with argument
Unsigned 2 and group true, CodeOperatorEnd, CodeOperatorEnd, EndFunc,
EndModule, End; func_depth is incremented on each group operator and
decremented on each CodeOperatorEnd. -/
theorem c5_trace :
    parseTrace 11 (WatParser.new c5_src) =
      [.state (.StartModule none),
       .state (.StartFunc none none { id := none, params := [], results := [] } []),
       .state (.CodeOperator [105, 51, 50, 46, 97, 100, 100] [] true ⟨1, 15, 15⟩),
       .state (.CodeOperator [105, 51, 50, 46, 99, 111, 110, 115, 116]
                 [.Unsigned [1]] true ⟨1, 24, 24⟩),
       .state .CodeOperatorEnd,
       .state (.CodeOperator [105, 51, 50, 46, 99, 111, 110, 115, 116]
                 [.Unsigned [2]] true ⟨1, 38, 38⟩),
       .state .CodeOperatorEnd,
       .state .CodeOperatorEnd,
       .state .EndFunc,
       .state .EndModule,
       .state .End] ∧
    (List.range 9).map (fun k => funcDepthAfter (k + 1) (WatParser.new c5_src)) =
      [some none, some (some 0), some (some 1), some (some 2), some (some 1),
       some (some 2), some (some 1), some (some 0), some none] :=
  ⟨by decide, by decide⟩

/-- C1: on (module (func (export "e"))) the parser emits StartFunc through
the inline-export early return without assigning func_depth; func_depth is
still None after the StartFunc event, and the next step call panics on the
unwrap of func_depth instead of reading the function body. -/
theorem c1_func_depth_bug :
    parseTrace 3 (WatParser.new c1_src) =
      [.state (.StartModule none),
       .state (.StartFunc none (some [101]) { id := none, params := [], results := [] } []),
       .panicked "called Option::unwrap() on a None value"] ∧
    funcDepthAfter 2 (WatParser.new c1_src) = some none := by
  have h1 : (WatParser.new c1_src).parse = .ok c1_p1 := by decide
  have h2 : c1_p1.parse = .ok c1_p2 := by decide
  have h3 : c1_p2.parse = .error "called Option::unwrap() on a None value" := by decide
  constructor
  · rw [parseTrace_cons 2 _ _ h1, parseTrace_cons 1 _ _ h2, parseTrace_panic 0 _ _ h3]
    decide
  · rw [funcDepthAfter, stepN_cons 1 _ _ h1, stepN_cons 0 _ _ h2]
    decide

/-- C2 counterexample: on (module (table 1 funcref)) the second step does
not produce any state at all, in particular not an Error state value: the
unknown field keyword hits the unreachable macro and the step panics. -/
theorem c2_counterexample :
    stateAfter 2 (WatParser.new c2_table_src) = none ∧
    ¬ ∃ e, stateAfter 2 (WatParser.new c2_table_src) = some (.Error e) := by
  have h : stateAfter 2 (WatParser.new c2_table_src) = none := by decide
  refine ⟨h, fun he => ?_⟩
  obtain ⟨e, he⟩ := he
  rw [h] at he
  exact Option.noConfusion he

/-- C2 amended: module fields whose keyword is neither import nor func
(such as table) make step panic via the unreachable macro, and import
descriptor keywords other than memory (such as global) make step panic via
the unimplemented macro; in neither case is an Error state value
returned. -/
theorem c2_unknown_keywords_panic :
    parseTrace 2 (WatParser.new c2_table_src) =
      [.state (.StartModule none),
       .panicked "internal error: entered unreachable code: nyi"] ∧
    parseTrace 2 (WatParser.new c2_global_src) =
      [.state (.StartModule none), .panicked "not implemented: nyi"] := by
  constructor
  · decide
  · have h1 : (WatParser.new c2_global_src).parse = .ok c2g_p1 := by decide
    have h2 : c2g_p1.parse = .error "not implemented: nyi" := by decide
    rw [parseTrace_cons 1 _ _ h1, parseTrace_panic 0 _ _ h2]
    decide

/-- C3: on the string literal consisting of quote, a, backslash, n, quote,
the scanner advances twice after the single-character escape, skips the
closing quote and fails with Unexpected eos instead of returning a String
token. -/
theorem c3_escape_skips_byte :
    (WatLexer.new c3_src).next = .error { message := "Unexpected eos", line := 1, column := 5 } := by
  decide

/-- C4: on (module (func (param f64))) the parameter valtype parsed for
the f64 keyword is I64 (the first duplicated f64 match arm of
read_valtype), and on (module (func (param i64))) the parser panics
because no arm matches the i64 keyword. -/
theorem c4_valtype_bug :
    parseTrace 2 (WatParser.new c4_f64_src) =
      [.state (.StartModule none),
       .state (.StartFunc none none
         { id := none, params := [{ id := none, valtype := .I64 }], results := [] } [])] ∧
    parseTrace 2 (WatParser.new c4_i64_src) =
      [.state (.StartModule none), .panicked "not implemented: nyi"] :=
  ⟨by decide, by decide⟩

/-- C6: the run 1e5 is rejected by is_float (the inverted exponent-marker
check) and lexes as Reserved, and the run 0x1p2 lexes as Unsigned because
is_hexdigit_char accepts every letter, so neither exponent form produces a
Float token. -/
theorem c6_exponent_not_float :
    firstTokenKind c6_dec_src = some .Reserved ∧
    firstTokenKind c6_hex_src = some .Unsigned ∧
    is_float c6_dec_src = false :=
  ⟨by decide, by decide, by decide⟩

/-- C7: the apostrophe byte is not an idchar in the source, so on the run
a-apostrophe-b the reserved scan stops after one byte and next returns a
one-byte Keyword token instead of a three-byte one. -/
theorem c7_apostrophe_not_idchar :
    firstToken c7_src = some { ty := .Keyword, start := ⟨1, 0, 0⟩, endPos := ⟨1, 1, 1⟩ } ∧
    is_idchar_byte 39 = false :=
  ⟨by decide, by decide⟩

/-- C8 counterexample: after the very first successful next of a fresh
lexer, rewind has no past token and panics (modelled as none), so the
rewind-then-next round trip claimed for the first token is impossible. -/
theorem c8_counterexample :
    ((WatLexer.new [97]).next.toOption.map (fun r => r.2.rewind)) = some none := by
  decide

/-
  General lemmas about the scanning routines, used for the rewind
  round-trip theorem.
-/

theorem skip_hexnum_source : ∀ (f : Nat) (s : ScanSt), (skip_hexnum f s).source = s.source := by
  intro f
  induction f with
  | zero => intro s; rfl
  | succ f ih =>
    intro s
    rw [skip_hexnum]
    dsimp only [ScanSt.next_char, ScanSt.unwind]
    split
    · rfl
    · split
      · exact ih _
      · split
        · rfl
        · split
          · rfl
          · exact ih _

theorem scan_reserved_loop_source : ∀ (f : Nat) (s : ScanSt),
    (scan_reserved_loop f s).source = s.source := by
  intro f
  induction f with
  | zero => intro s; rfl
  | succ f ih =>
    intro s
    rw [scan_reserved_loop]
    dsimp only [ScanSt.next_char]
    split
    · exact ih _
    · rfl

theorem skip_line_comment_loop_props : ∀ (f : Nat) (s : ScanSt),
    (skip_line_comment_loop f s).source = s.source ∧
    (skip_line_comment_loop f s).line_start = s.line_start ∧
    s.position ≤ (skip_line_comment_loop f s).position := by
  intro f
  induction f with
  | zero => intro s; exact ⟨rfl, rfl, Nat.le_refl _⟩
  | succ f ih =>
    intro s
    rw [skip_line_comment_loop]
    dsimp only [ScanSt.next_char]
    split
    · obtain ⟨h1, h2, h3⟩ := ih { s with position := s.position + 1 }
      exact ⟨h1, h2, by simp at h3 ⊢; omega⟩
    · exact ⟨rfl, rfl, Nat.le_succ _⟩

theorem skip_line_comment_props (s : ScanSt) (hwf : s.line_start ≤ s.position) :
    (skip_line_comment s).source = s.source ∧
    (skip_line_comment s).line_start ≤ (skip_line_comment s).position := by
  obtain ⟨h1, h2, h3⟩ := skip_line_comment_loop_props (s.source.length + 1) s
  simp only [skip_line_comment, ScanSt.next_char]
  split
  · exact ⟨h1, Nat.le_refl _⟩
  · exact ⟨h1, by omega⟩

theorem skip_block_comment_loop_props : ∀ (f depth : Nat) (s t : ScanSt),
    s.line_start ≤ s.position + 1 →
    skip_block_comment_loop f depth s = .ok t →
    t.source = s.source ∧ t.line_start ≤ t.position := by
  intro f
  induction f with
  | zero =>
    intro depth s t _ h
    simp [skip_block_comment_loop] at h
  | succ f ih =>
    intro depth s t hinv h
    rw [skip_block_comment_loop] at h
    simp only [ScanSt.next_char] at h
    split at h
    · exact absurd h (by simp)
    · split at h
      · obtain ⟨h1, h2⟩ := ih _ _ _ (by simp <;> omega) h
        exact ⟨h1, h2⟩
      · split at h
        · split at h
          · injection h with h
            subst h
            constructor
            · rfl
            · simp
              try omega
          · obtain ⟨h1, h2⟩ := ih _ _ _ (by simp <;> omega) h
            exact ⟨h1, h2⟩
        · split at h
          · obtain ⟨h1, h2⟩ := ih _ _ _ (by simp <;> omega) h
            exact ⟨h1, h2⟩
          · obtain ⟨h1, h2⟩ := ih _ _ _ (by simp <;> omega) h
            exact ⟨h1, h2⟩

theorem skip_block_comment_props (s t : ScanSt)
    (hwf : s.line_start ≤ s.position)
    (h : skip_block_comment s = .ok t) :
    t.source = s.source ∧ t.line_start ≤ t.position := by
  unfold skip_block_comment at h
  obtain ⟨h1, h2⟩ := skip_block_comment_loop_props _ _ _ _ (by simp [ScanSt.next_char] <;> omega) h
  exact ⟨h1, h2⟩

theorem skip_spaces_ok : ∀ (f : Nat) (s t : ScanSt),
    s.line_start ≤ s.position →
    skip_spaces f s = .ok t →
    t.source = s.source ∧ t.line_start ≤ t.position ∧ skip_done t = true := by
  intro f
  induction f with
  | zero =>
    intro s t _ h
    simp [skip_spaces] at h
  | succ f ih =>
    intro s t hwf h
    rw [skip_spaces] at h
    simp only [ScanSt.next_char] at h
    split at h
    · injection h with h
      subst h
      refine ⟨rfl, hwf, ?_⟩
      unfold skip_done
      simp_all
    · split at h
      · obtain ⟨h1, h2, h3⟩ := ih _ _ (by simp; omega) h
        exact ⟨h1, h2, h3⟩
      · split at h
        · obtain ⟨h1, h2, h3⟩ := ih _ _ (by simp) h
          exact ⟨h1, h2, h3⟩
        · split at h
          · split at h
            · exact absurd h (by simp)
            · rename_i u hu
              obtain ⟨hu1, hu2⟩ := skip_block_comment_props _ _ hwf hu
              obtain ⟨h1, h2, h3⟩ := ih _ _ hu2 h
              exact ⟨h1.trans hu1, h2, h3⟩
          · split at h
            · obtain ⟨hl1, hl2⟩ := skip_line_comment_props _ hwf
              obtain ⟨h1, h2, h3⟩ := ih _ _ hl2 h
              exact ⟨h1.trans hl1, h2, h3⟩
            · injection h with h
              subst h
              refine ⟨rfl, hwf, ?_⟩
              unfold skip_done
              simp_all
              tauto

theorem skip_done_fix (t : ScanSt) (h : skip_done t = true) (f : Nat) :
    skip_spaces (f + 1) t = .ok t := by
  rw [skip_spaces]
  unfold skip_done at h
  by_cases h0 : t.eos = true
  · simp [h0]
  · simp only [h0, Bool.false_or] at h
    simp only [Bool.not_eq_true'] at h
    simp only [Bool.or_eq_false_iff] at h
    obtain ⟨⟨⟨⟨⟨h1, h2⟩, h3⟩, h4⟩, h5⟩, h6⟩ := h
    simp [h0, h1, h2, h3, h4, h5, h6]
theorem scan_string_escape_source (s u : ScanSt) (h : scan_string_escape s = .ok u) :
    u.source = s.source := by
  unfold scan_string_escape at h
  dsimp only [ScanSt.next_char] at h
  split at h
  · exact absurd h (by simp)
  · split at h
    · split at h
      · exact absurd h (by simp)
      · split at h
        · exact absurd h (by simp)
        · split at h
          · exact absurd h (by simp)
          · split at h
            · exact absurd h (by simp)
            · split at h
              · exact absurd h (by simp)
              · split at h
                · exact absurd h (by simp)
                · injection h with h
                  subst h
                  rw [skip_hexnum_source]
    · split at h
      · injection h with h
        subst h
        rfl
      · split at h
        · exact absurd h (by simp)
        · split at h
          · exact absurd h (by simp)
          · split at h
            · exact absurd h (by simp)
            · injection h with h
              subst h
              rfl

theorem scan_string_utf8_source (s u : ScanSt) (h : scan_string_utf8 s = .ok u) :
    u.source = s.source := by
  unfold scan_string_utf8 at h
  split at h
  · exact absurd h (by simp)
  · split at h
    · exact absurd h (by simp)
    · dsimp only [ScanSt.next_char] at h
      split at h
      · exact absurd h (by simp)
      · split at h
        · exact absurd h (by simp)
        · split at h
          · split at h
            · exact absurd h (by simp)
            · split at h
              · exact absurd h (by simp)
              · split at h
                · split at h
                  · exact absurd h (by simp)
                  · split at h
                    · exact absurd h (by simp)
                    · injection h with h
                      subst h
                      rfl
                · injection h with h
                  subst h
                  rfl
          · injection h with h
            subst h
            rfl

theorem scan_string_loop_ok : ∀ (f : Nat) (st : WatPosition) (s u : ScanSt) (tok : WatToken),
    scan_string_loop st f s = .ok (tok, u) →
    tok.start = st ∧ u.source = s.source := by
  intro f
  induction f with
  | zero =>
    intro st s u tok h
    simp [scan_string_loop] at h
  | succ f ih =>
    intro st s u tok h
    rw [scan_string_loop] at h
    dsimp only [ScanSt.next_char] at h
    split at h
    · exact absurd h (by simp)
    · split at h
      · injection h with h
        injection h with h1 h2
        subst h1
        subst h2
        exact ⟨rfl, rfl⟩
      · split at h
        · split at h
          · exact absurd h (by simp)
          · rename_i v hv
            obtain ⟨g1, g2⟩ := ih _ _ _ _ h
            have hsrc := scan_string_escape_source _ _ hv
            exact ⟨g1, by rw [g2, hsrc]⟩
        · split at h
          · split at h
            · exact absurd h (by simp)
            · rename_i v hv
              obtain ⟨g1, g2⟩ := ih _ _ _ _ h
              have hsrc := scan_string_utf8_source _ _ hv
              exact ⟨g1, by rw [g2, hsrc]⟩
          · split at h
            · exact absurd h (by simp)
            · obtain ⟨g1, g2⟩ := ih _ _ _ _ h
              exact ⟨g1, g2⟩

theorem dispatch_token_ok (t : ScanSt) (a : WatToken) (u : ScanSt)
    (h : dispatch_token t = .ok (a, u)) :
    a.start = t.current_position ∧ u.source = t.source := by
  unfold dispatch_token at h
  split at h
  · injection h with h
    injection h with h1 h2
    subst h1
    subst h2
    exact ⟨rfl, rfl⟩
  · split at h
    · unfold scan_string at h
      exact scan_string_loop_ok _ _ _ _ _ h
    · split at h
      · dsimp only [ScanSt.next_char] at h
        injection h with h
        injection h with h1 h2
        subst h1
        subst h2
        exact ⟨rfl, rfl⟩
      · split at h
        · dsimp only [ScanSt.next_char] at h
          injection h with h
          injection h with h1 h2
          subst h1
          subst h2
          exact ⟨rfl, rfl⟩
        · split at h
          · injection h with h
            have h1 : a = (scan_reserved t).1 := by rw [h]
            have h2 : u = (scan_reserved t).2 := by rw [h]
            subst h1
            subst h2
            constructor
            · rfl
            · have hu : (scan_reserved t).2 = scan_reserved_loop (t.source.length + 1) t := rfl
              rw [hu, scan_reserved_loop_source]
          · exact absurd h (by simp)

/-- C8 amended: rewind idempotence holds whenever the lexer already held a
token before next was called (so a past token exists afterwards): if next
succeeds producing token a and lexer state s2, then rewind succeeds and
the following next reproduces exactly the same token a and the same lexer
state s2.  The well-formedness hypothesis line_start less-or-equal
position holds for every lexer reachable from WatLexer.new. -/
theorem c8_amended (s : WatLexer) (a : WatToken) (s2 : WatLexer)
    (hwf : s.scan.line_start ≤ s.scan.position)
    (htok : s.token.isSome = true)
    (h : s.next = .ok (a, s2)) :
    ∃ s3, s2.rewind = some s3 ∧ s3.next = .ok (a, s2) := by
  obtain ⟨p0, hp0⟩ := Option.isSome_iff_exists.mp htok
  unfold WatLexer.next at h
  cases hscan : scan_next_token s.scan with
  | error e =>
    rw [hscan] at h
    exact absurd h (by simp)
  | ok r =>
    obtain ⟨a0, sc1⟩ := r
    rw [hscan] at h
    simp only [Except.ok.injEq, Prod.mk.injEq] at h
    obtain ⟨ha, hs2⟩ := h
    subst ha
    subst hs2
    unfold scan_next_token at hscan
    cases hskip : skip_spaces (s.scan.source.length + 1) s.scan with
    | error e =>
      rw [hskip] at hscan
      exact absurd hscan (by simp)
    | ok t =>
      rw [hskip] at hscan
      obtain ⟨hsrc, hwt, hdone⟩ := skip_spaces_ok _ _ _ hwf hskip
      obtain ⟨hstart, hsrc1⟩ := dispatch_token_ok _ _ _ hscan
      refine ⟨{ scan := t, token := some p0, past_token := none }, ?_, ?_⟩
      · unfold WatLexer.rewind
        dsimp only
        rw [hp0]
        dsimp only [WatLexer.current_token, Option.getD]
        obtain ⟨tsrc, tpos, tline, tls⟩ := t
        rw [hstart]
        dsimp only [ScanSt.current_position] at hsrc1 hwt ⊢
        simp only [Option.some.injEq, WatLexer.mk.injEq, ScanSt.mk.injEq, and_true, true_and]
        exact ⟨hsrc1, by omega⟩
      · unfold WatLexer.next
        dsimp only
        unfold scan_next_token
        rw [skip_done_fix t hdone, hscan]
        dsimp only
        rw [hp0]

/-- Witness for c8_amended: applied to the lexer over the source a-space-b
after its first token, whose next call produces the one-byte keyword b. -/
theorem c8_amended_witness :
    c8_lexA.scan.line_start ≤ c8_lexA.scan.position ∧
    c8_lexA.token.isSome = true ∧
    ∃ s3, c8_lexB.rewind = some s3 ∧ s3.next = .ok (c8_tokB, c8_lexB) := by
  have h : c8_lexA.next = .ok (c8_tokB, c8_lexB) := by decide
  exact ⟨by decide, by decide, c8_amended c8_lexA c8_tokB c8_lexB (by decide) (by decide) h⟩

/-
  Lemmas for convert_u32_to_data.
-/

theorem conv_loop_eq : ∀ (f n : Nat), n < 256 ^ (f + 1) →
    (n % 256) :: convert_u32_to_data_loop f n = spec_le_bytes_loop (f + 1) n := by
  intro f
  induction f with
  | zero =>
    intro n hn
    have h0 : n / 256 = 0 := Nat.div_eq_of_lt (by simpa using hn)
    simp [convert_u32_to_data_loop, spec_le_bytes_loop, h0]
  | succ f ih =>
    intro n hn
    rw [spec_le_bytes_loop]
    by_cases h : 256 ≤ n
    · have hdiv : n / 256 < 256 ^ (f + 1) := by
        rw [Nat.div_lt_iff_lt_mul (by norm_num : 0 < 256)]
        calc n < 256 ^ (f + 1 + 1) := hn
          _ = 256 ^ (f + 1) * 256 := by rw [pow_succ]
      have hne : ¬ (n / 256 = 0) := by
        rw [Nat.div_eq_zero_iff (by norm_num : 0 < 256)]
        omega
      rw [convert_u32_to_data_loop]
      simp only [if_pos h, if_neg hne]
      rw [← ih (n / 256) hdiv]
    · have h0 : n / 256 = 0 := Nat.div_eq_of_lt (by omega)
      rw [convert_u32_to_data_loop]
      simp [h, h0]

/-- convert_u32_to_data agrees with the reference little-endian encoding
on every u32 value. -/
theorem convert_u32_agrees (n : Nat) (h : n < 4294967296) :
    convert_u32_to_data (some n) = some (spec_le_bytes n) := by
  have hn : n < 256 ^ (4 + 1) := lt_of_lt_of_le h (by norm_num)
  show some ((n % 256) :: convert_u32_to_data_loop 4 n) = some (spec_le_bytes n)
  rw [conv_loop_eq 4 n hn]
  rfl

/-- C9 amended: convert_u32_to_data does not truncate; for every u32 input
it produces exactly the reference little-endian encoding that emits
low-order bytes until the remaining value is zero. -/
theorem c9_convert_correct (n : Nat) (h : n < 4294967296) :
    convert_u32_to_data (some n) = some (spec_le_bytes n) :=
  convert_u32_agrees n h

/-- C9 counterexample to the claim as stated: there is no u32 value on
which convert_u32_to_data differs from the reference little-endian
encoding. -/
theorem c9_no_truncation :
    ¬ ∃ n, n < 4294967296 ∧ convert_u32_to_data (some n) ≠ some (spec_le_bytes n) := by
  rintro ⟨n, hlt, hne⟩
  exact hne (convert_u32_agrees n hlt)

/-- Witness for c9_convert_correct at the input 0x12345678. -/
theorem c9_convert_correct_witness :
    305419896 < 4294967296 ∧
    convert_u32_to_data (some 305419896) = some (spec_le_bytes 305419896) :=
  ⟨by decide, c9_convert_correct 305419896 (by decide)⟩

/-- C10: whenever read_arg_float succeeds, the produced instruction
argument is Float Number with positive sign, empty mantissa bytes and zero
exponent, regardless of the Float literal content: parse_float discards
the literal and the NaN and Inf variants are never produced. -/
theorem c10_float_placeholder (p p2 : WatParser) (arg : WatInstructionArg)
    (h : p.read_arg_float = .ok (arg, p2)) :
    arg = .Float (.Number .Positive [] 0) := by
  unfold WatParser.read_arg_float at h
  simp only [parse_float] at h
  cases hadv : p.advance with
  | error e =>
    rw [hadv] at h
    simp at h
  | ok q =>
    rw [hadv] at h
    simp at h
    exact h.1.symm

/-- Witness for c10_float_placeholder: a parser positioned on the Float
token nan. -/
theorem c10_float_placeholder_witness :
    ∃ arg p2, c10_floatstate.read_arg_float = .ok (arg, p2) ∧
      arg = .Float (.Number .Positive [] 0) := by
  have h : c10_floatstate.read_arg_float = .ok (.Float (.Number .Positive [] 0), c10_floatstate2) := by
    decide
  exact ⟨_, _, h, c10_float_placeholder c10_floatstate c10_floatstate2 _ h⟩
